import Mathlib

set_option maxHeartbeats 1000000

/-- One queued audio item: `name` is the file name with its extension stripped,
`url` models the object URL handed to the media engine (`URL.createObjectURL`
returns a fresh URL on every call, modelled by a counter value). -/
structure Track where
  name : String
  url : Nat
  deriving Repr, DecidableEq

/-- Whole-player state of `script.js`: the module-level variables `playlist`,
`currentTrackIndex`, `isPlaying`, together with the media element
(`audioPlayer.src` as an optional object URL, `audioPlayer.paused`), the list of
revoked object URLs in revocation order, and the fresh-URL counter. -/
structure PlayerState where
  playlist : List Track
  currentTrackIndex : Int
  isPlaying : Bool
  audioSrc : Option Nat
  audioPaused : Bool
  revoked : List Nat
  nextUrl : Nat
  deriving Repr, DecidableEq

/-- Initial state: empty playlist, `currentTrackIndex = -1`, nothing playing,
the audio element paused with no source. -/
def initState : PlayerState :=
  { playlist := [], currentTrackIndex := -1, isPlaying := false,
    audioSrc := none, audioPaused := true, revoked := [], nextUrl := 0 }

/-- JavaScript array read `playlist[index]` at an integer index: `undefined`
(`none`) outside `[0, length)`. -/
def jsIndex (l : List Track) (i : Int) : Option Track :=
  if 0 ≤ i then l.get? i.toNat else none

/-- An incoming `File` object: name, size in bytes, declared MIME type. -/
structure JsFile where
  name : String
  size : Nat
  type : String
  deriving Repr, DecidableEq

/-- MAX_FILE_SIZE (script.js line 19): 50 MiB. -/
def MAX_FILE_SIZE : Nat := 50 * 1024 * 1024

/-- validMimeTypes (script.js lines 129-137). -/
def validMimeTypes : List String :=
  ["audio/mp3", "audio/mpeg", "audio/x-mpeg", "audio/mpeg3", "audio/mpg",
   "audio/x-mpg", "audio/x-mpeg-3"]

/-- validExtensions (script.js line 145). -/
def validExtensions : List String := [".mp3", ".mp2", ".mpga", ".mpg", ".mpeg"]

/-- JavaScript `String.prototype.toLowerCase`, character by character (all the
characters this development touches are ASCII). -/
def jsToLower (s : String) : String := String.mk (s.data.map Char.toLower)

/-- JavaScript `String.prototype.endsWith`. -/
def jsEndsWith (s post : String) : Bool := post.data.isSuffixOf s.data

/-- checkIfMp3 (script.js lines 127-148): MIME-type membership, else the
extension fallback on the lowercased file name. -/
def checkIfMp3 (file : JsFile) : Bool :=
  validMimeTypes.contains file.type ||
    validExtensions.any (fun ext => jsEndsWith (jsToLower file.name) ext)

/-- Per-file acceptance decision inlined in the loop of handleFiles
(script.js lines 86-108): oversized files are rejected first, then the
type/extension check runs; the error taxonomy names are from the spec. -/
inductive RejectReason where
  | TooLarge
  | UnsupportedType
  deriving Repr, DecidableEq

/-- validate: `none` when the file is accepted, otherwise the rejection reason,
following exactly the branch order of handleFiles (script.js lines 88-108). -/
def validate (file : JsFile) : Option RejectReason :=
  if MAX_FILE_SIZE < file.size then some .TooLarge
  else if checkIfMp3 file then none
  else some .UnsupportedType

/-- Replacement of the trailing-extension regular expression with the empty
string, `file.name.replace(...)` (script.js line 99): drops the final dot plus a
nonempty run of characters containing neither a dot nor a slash, when the name
ends that way; otherwise the name is unchanged. -/
def stripExt (name : String) : String :=
  let rev := name.data.reverse
  let ext := rev.takeWhile (fun c => !(c == '.') && !(c == '/'))
  if 0 < ext.length ∧ (rev.drop ext.length).head? = some '.' then
    String.mk ((rev.drop (ext.length + 1)).reverse)
  else name

/-- playTrack (script.js lines 234-243): asks the engine to play and records
`isPlaying := true`. `audioPlayer.play()` raises no synchronous exception
(failures surface asynchronously), so the assignments always run. -/
def playTrack (s : PlayerState) : PlayerState :=
  { s with audioPaused := false, isPlaying := true }

/-- pauseTrack (script.js lines 246-250). -/
def pauseTrack (s : PlayerState) : PlayerState :=
  { s with audioPaused := true, isPlaying := false }

/-- loadTrack (script.js lines 222-231), mirroring the statement order of the
source: `currentTrackIndex = index` runs first; reading `.url` of an undefined
`playlist[index]` then throws a TypeError, modelled by the `true` flag, with the
partial mutation left in place. -/
def loadTrack (index : Int) (s : PlayerState) : PlayerState × Bool :=
  let s1 := { s with currentTrackIndex := index }
  match jsIndex s1.playlist index with
  | none => (s1, true)
  | some track => (playTrack { s1 with audioSrc := some track.url }, false)

/-- removeTrack (script.js lines 195-219). An invalid index throws on reading
`playlist[index].url` before any mutation. A valid removal first revokes the
track's object URL, then splices it out, then adjusts the selection: reload at
the clamped index when the removed track was current and tracks remain, reset
to the idle state when it was the last track, decrement the selection when the
removal was below it. -/
def removeTrack (index : Int) (s : PlayerState) : PlayerState × Bool :=
  match jsIndex s.playlist index with
  | none => (s, true)
  | some track =>
    let s1 := { s with
      revoked := s.revoked ++ [track.url],
      playlist := s.playlist.eraseIdx index.toNat }
    if index = s1.currentTrackIndex then
      if 0 < s1.playlist.length then
        loadTrack (min index ((s1.playlist.length : Int) - 1)) s1
      else
        ({ s1 with currentTrackIndex := -1, audioPaused := true,
                   audioSrc := none, isPlaying := false }, false)
    else if index < s1.currentTrackIndex then
      ({ s1 with currentTrackIndex := s1.currentTrackIndex - 1 }, false)
    else (s1, false)

/-- Body of the `for` loop of handleFiles (script.js lines 86-109), acting on
the state plus the `validFiles` and `invalidFiles` counters. -/
def handleOneFile (acc : PlayerState × Nat × Nat) (file : JsFile) :
    PlayerState × Nat × Nat :=
  let s := acc.1
  if MAX_FILE_SIZE < file.size then (s, acc.2.1, acc.2.2 + 1)
  else if checkIfMp3 file then
    ({ s with
        playlist := s.playlist ++ [{ name := stripExt file.name, url := s.nextUrl }],
        nextUrl := s.nextUrl + 1 },
      acc.2.1 + 1, acc.2.2)
  else (s, acc.2.1, acc.2.2 + 1)

/-- handleFiles (script.js lines 82-124): fold the loop body over the dropped
files, then auto-load track 0 when at least one file was accepted and
`currentTrackIndex` is `-1`. -/
def handleFiles (files : List JsFile) (s : PlayerState) : PlayerState × Bool :=
  let acc := files.foldl handleOneFile (s, 0, 0)
  if 0 < acc.2.1 then
    if acc.1.currentTrackIndex = -1 then loadTrack 0 acc.1 else (acc.1, false)
  else (acc.1, false)

/-- togglePlay (script.js lines 253-268). -/
def togglePlay (s : PlayerState) : PlayerState × Bool :=
  if s.currentTrackIndex = -1 then
    if 0 < s.playlist.length then loadTrack 0 s else (s, false)
  else if s.isPlaying then (pauseTrack s, false)
  else (playTrack s, false)

/-- playPrev (script.js lines 271-277). -/
def playPrev (s : PlayerState) : PlayerState × Bool :=
  if 0 < s.currentTrackIndex then loadTrack (s.currentTrackIndex - 1) s
  else loadTrack ((s.playlist.length : Int) - 1) s

/-- playNext (script.js lines 280-286). -/
def playNext (s : PlayerState) : PlayerState × Bool :=
  if s.currentTrackIndex < (s.playlist.length : Int) - 1 then
    loadTrack (s.currentTrackIndex + 1) s
  else loadTrack 0 s

/-- Truncation toward zero, the rounding JavaScript's `%` operator applies to
the quotient. -/
def jsTrunc (q : ℚ) : Int := if 0 ≤ q then ⌊q⌋ else -⌊-q⌋

/-- JavaScript remainder `a % b` for finite operands with `b ≠ 0`. -/
def jsMod (a b : ℚ) : ℚ := a - b * ((jsTrunc (a / b) : Int) : ℚ)

/-- String.padStart(2, '0') of JavaScript. -/
def padStart2 (s : String) : String :=
  if s.length < 2 then String.mk (List.replicate (2 - s.length) '0') ++ s else s

/-- formatTime (script.js lines 316-323); the not-a-number input is `none`, a
finite number input is a rational. -/
def formatTime : Option ℚ → String
  | none => "0:00"
  | some seconds =>
    let mins : Int := ⌊seconds / 60⌋
    let secs : Int := ⌊jsMod seconds 60⌋
    toString mins ++ ":" ++ padStart2 (toString secs)

lemma jsTrunc_of_nonneg {q : ℚ} (h : 0 ≤ q) : jsTrunc q = ⌊q⌋ := if_pos h

lemma floor_div_sixty (q : ℚ) : ⌊q / 60⌋ = ⌊q⌋ / 60 := by
  have hfr0 : 0 ≤ Int.fract q := Int.fract_nonneg q
  have hfr1 : Int.fract q < 1 := Int.fract_lt_one q
  have hr0 : (0 : ℤ) ≤ ⌊q⌋ % 60 := Int.emod_nonneg _ (by norm_num)
  have hr1 : ⌊q⌋ % 60 < 60 := Int.emod_lt_of_pos _ (by norm_num)
  have hsplit : (⌊q⌋ : ℚ) = 60 * ((⌊q⌋ / 60 : ℤ) : ℚ) + ((⌊q⌋ % 60 : ℤ) : ℚ) := by
    exact_mod_cast congrArg (fun z : ℤ => (z : ℚ)) (Int.ediv_add_emod ⌊q⌋ 60).symm
  have hq : q = (⌊q⌋ : ℚ) + Int.fract q := (Int.floor_add_fract q).symm
  have hqe : q / 60 =
      ((⌊q⌋ / 60 : ℤ) : ℚ) + (((⌊q⌋ % 60 : ℤ) : ℚ) + Int.fract q) / 60 := by
    field_simp
    linarith [hsplit, hq]
  rw [hqe, Int.floor_int_add]
  have hz : ⌊(((⌊q⌋ % 60 : ℤ) : ℚ) + Int.fract q) / 60⌋ = 0 := by
    rw [Int.floor_eq_zero_iff]
    refine Set.mem_Ico.mpr ⟨by positivity, ?_⟩
    rw [div_lt_one (by norm_num)]
    have h59 : ((⌊q⌋ % 60 : ℤ) : ℚ) ≤ 59 := by exact_mod_cast Int.lt_add_one_iff.mp hr1
    linarith
  rw [hz, add_zero]

lemma floor_jsMod_sixty {q : ℚ} (h : 0 ≤ q) : ⌊jsMod q 60⌋ = ⌊q⌋ % 60 := by
  have h60 : (0 : ℚ) ≤ q / 60 := by positivity
  unfold jsMod
  rw [jsTrunc_of_nonneg h60, floor_div_sixty]
  have hcast : (60 : ℚ) * ((⌊q⌋ / 60 : ℤ) : ℚ) = ((60 * (⌊q⌋ / 60) : ℤ) : ℚ) := by
    push_cast; ring
  rw [hcast, Int.floor_sub_int]
  omega

lemma loadTrack_valid (s : PlayerState) (i : Int) (h0 : 0 ≤ i)
    (h1 : i.toNat < s.playlist.length) :
    loadTrack i s =
      ({ s with currentTrackIndex := i,
                audioSrc := some ((s.playlist.get ⟨i.toNat, h1⟩).url),
                audioPaused := false, isPlaying := true }, false) := by
  unfold loadTrack jsIndex playTrack
  simp [h0, List.getElem?_eq_getElem h1]

lemma loadTrack_invalid (s : PlayerState) (i : Int)
    (h : ¬(0 ≤ i ∧ i.toNat < s.playlist.length)) :
    loadTrack i s = ({ s with currentTrackIndex := i }, true) := by
  unfold loadTrack jsIndex
  by_cases h0 : 0 ≤ i
  · have h1 : s.playlist.length ≤ i.toNat := by omega
    simp [h0, List.getElem?_eq_none h1]
  · simp [h0]

/-- C9: `formatTime` returns floor(seconds/60), a colon, and floor(seconds mod
60) zero-padded to two digits — for a nonnegative finite input these equal
`⌊s⌋ / 60` and `⌊s⌋ % 60` — and returns "0:00" when the input is not a number;
in particular `formatTime NaN = "0:00"`, `formatTime 65 = "1:05"`,
`formatTime 3 = "0:03"`. -/
theorem c9_formatTime_spec :
    formatTime none = "0:00" ∧
    (∀ q : ℚ, 0 ≤ q →
      formatTime (some q) =
        toString (⌊q⌋ / 60) ++ ":" ++ padStart2 (toString (⌊q⌋ % 60))) ∧
    formatTime (some 65) = "1:05" ∧ formatTime (some 3) = "0:03" := by
  have main : ∀ q : ℚ, 0 ≤ q →
      formatTime (some q) =
        toString (⌊q⌋ / 60) ++ ":" ++ padStart2 (toString (⌊q⌋ % 60)) := by
    intro q hq
    show toString ⌊q / 60⌋ ++ ":" ++ padStart2 (toString ⌊jsMod q 60⌋) = _
    rw [floor_div_sixty, floor_jsMod_sixty hq]
  refine ⟨rfl, main, ?_, ?_⟩
  · rw [main 65 (by norm_num), show ⌊(65 : ℚ)⌋ = 65 by norm_num]
    decide
  · rw [main 3 (by norm_num), show ⌊(3 : ℚ)⌋ = 3 by norm_num]
    decide

/-- C9 witness: the general formula applied at the concrete input 125. -/
theorem c9_formatTime_spec_witness :
    (0 : ℚ) ≤ 125 ∧
    formatTime (some 125) =
      toString (⌊(125 : ℚ)⌋ / 60) ++ ":" ++ padStart2 (toString (⌊(125 : ℚ)⌋ % 60)) :=
  ⟨by norm_num, c9_formatTime_spec.2.1 125 (by norm_num)⟩

/-- C7: a file passes validation iff its size is at most 52428800 bytes (50
MiB exactly is accepted) and its declared type is in the known audio/MPEG set
or its lowercased name ends in one of the known extensions; an oversized file
is rejected with TooLarge (52428801 bytes rejected), and a file within the size
bound matching neither type nor extension is rejected with UnsupportedType.
Acceptance is exactly what makes the handleFiles loop append a track. -/
theorem c7_validate_spec :
    (∀ f : JsFile,
      (validate f = none ↔
        (f.size ≤ 52428800 ∧
          (f.type ∈ ["audio/mp3", "audio/mpeg", "audio/x-mpeg", "audio/mpeg3",
              "audio/mpg", "audio/x-mpg", "audio/x-mpeg-3"] ∨
            ∃ ext ∈ [".mp3", ".mp2", ".mpga", ".mpg", ".mpeg"],
              jsEndsWith (jsToLower f.name) ext = true))) ∧
      (validate f = some .TooLarge ↔ 52428800 < f.size) ∧
      (validate f = some .UnsupportedType ↔
        (f.size ≤ 52428800 ∧
          ¬(f.type ∈ ["audio/mp3", "audio/mpeg", "audio/x-mpeg", "audio/mpeg3",
              "audio/mpg", "audio/x-mpg", "audio/x-mpeg-3"] ∨
            ∃ ext ∈ [".mp3", ".mp2", ".mpga", ".mpg", ".mpeg"],
              jsEndsWith (jsToLower f.name) ext = true))) ∧
      (∀ (s : PlayerState) (v iv : Nat),
        (handleOneFile (s, v, iv) f).1.playlist =
          s.playlist ++
            (if validate f = none
              then [{ name := stripExt f.name, url := s.nextUrl }] else []))) ∧
    validate { name := "a.bin", size := 52428801, type := "audio/mpeg" } = some .TooLarge ∧
    validate { name := "a.mp3", size := 52428800, type := "audio/mpeg" } = none := by
  have hcheck : ∀ f : JsFile, checkIfMp3 f = true ↔
      (f.type ∈ ["audio/mp3", "audio/mpeg", "audio/x-mpeg", "audio/mpeg3",
          "audio/mpg", "audio/x-mpg", "audio/x-mpeg-3"] ∨
        ∃ ext ∈ [".mp3", ".mp2", ".mpga", ".mpg", ".mpeg"],
          jsEndsWith (jsToLower f.name) ext = true) := by
    intro f
    unfold checkIfMp3 validMimeTypes validExtensions
    simp [List.elem_iff, List.any_eq_true]
  refine ⟨fun f => ?_, by decide, by decide⟩
  by_cases hsize : MAX_FILE_SIZE < f.size
  · have hv : validate f = some RejectReason.TooLarge := by
      unfold validate
      rw [if_pos hsize]
    have hsize48 : 52428800 < f.size := by
      have := hsize
      unfold MAX_FILE_SIZE at this
      omega
    refine ⟨?_, ?_, ?_, ?_⟩
    · simp only [hv]
      constructor
      · intro hcontra
        exact absurd hcontra (by simp)
      · intro hcontra
        omega
    · simp [hv, hsize48]
    · simp only [hv]
      constructor
      · intro hcontra
        exact absurd hcontra (by simp)
      · intro hcontra
        omega
    · intro s v iv
      unfold handleOneFile
      rw [if_pos hsize]
      simp [hv]
  · have hsize48 : f.size ≤ 52428800 := by
      have := hsize
      unfold MAX_FILE_SIZE at this
      omega
    by_cases hmp3 : checkIfMp3 f = true
    · have hv : validate f = none := by
        unfold validate
        rw [if_neg hsize, if_pos hmp3]
      refine ⟨?_, ?_, ?_, ?_⟩
      · simp only [hv, true_iff]
        exact ⟨hsize48, (hcheck f).mp hmp3⟩
      · simp only [hv]
        constructor
        · intro hcontra
          exact absurd hcontra (by simp)
        · intro hcontra
          omega
      · simp only [hv]
        constructor
        · intro hcontra
          exact absurd hcontra (by simp)
        · rintro ⟨-, hm⟩
          exact absurd ((hcheck f).mp hmp3) hm
      · intro s v iv
        unfold handleOneFile
        rw [if_neg hsize, if_pos hmp3]
        simp [hv]
    · have hv : validate f = some RejectReason.UnsupportedType := by
        unfold validate
        rw [if_neg hsize, if_neg hmp3]
      have hnot : ¬(f.type ∈ ["audio/mp3", "audio/mpeg", "audio/x-mpeg", "audio/mpeg3",
          "audio/mpg", "audio/x-mpg", "audio/x-mpeg-3"] ∨
            ∃ ext ∈ [".mp3", ".mp2", ".mpga", ".mpg", ".mpeg"],
              jsEndsWith (jsToLower f.name) ext = true) := by
        intro hm
        exact hmp3 ((hcheck f).mpr hm)
      refine ⟨?_, ?_, ?_, ?_⟩
      · simp only [hv]
        constructor
        · intro hcontra
          exact absurd hcontra (by simp)
        · rintro ⟨-, hm⟩
          exact absurd hm hnot
      · simp only [hv]
        constructor
        · intro hcontra
          exact absurd hcontra (by simp)
        · intro hcontra
          omega
      · simp only [hv, true_iff]
        exact ⟨hsize48, hnot⟩
      · intro s v iv
        unfold handleOneFile
        rw [if_neg hsize, if_neg hmp3]
        simp [hv]

lemma jsIndex_of_valid (l : List Track) (i : Int) (h0 : 0 ≤ i)
    (h1 : i.toNat < l.length) : jsIndex l i = some (l.get ⟨i.toNat, h1⟩) := by
  unfold jsIndex
  simp [h0, List.getElem?_eq_getElem h1]

lemma jsIndex_of_invalid (l : List Track) (i : Int)
    (h : ¬(0 ≤ i ∧ i.toNat < l.length)) : jsIndex l i = none := by
  unfold jsIndex
  by_cases h0 : 0 ≤ i
  · have h1 : l.length ≤ i.toNat := by omega
    simp [h0, List.getElem?_eq_none h1]
  · simp [h0]

lemma removeTrack_invalid (s : PlayerState) (i : Int)
    (h : ¬(0 ≤ i ∧ i.toNat < s.playlist.length)) : removeTrack i s = (s, true) := by
  unfold removeTrack
  rw [jsIndex_of_invalid s.playlist i h]

lemma removeTrack_before (s : PlayerState) (i : Int) (h0 : 0 ≤ i)
    (h1 : i.toNat < s.playlist.length) (h2 : i < s.currentTrackIndex) :
    removeTrack i s =
      ({ s with revoked := s.revoked ++ [(s.playlist.get ⟨i.toNat, h1⟩).url],
                playlist := s.playlist.eraseIdx i.toNat,
                currentTrackIndex := s.currentTrackIndex - 1 }, false) := by
  unfold removeTrack
  rw [jsIndex_of_valid s.playlist i h0 h1]
  dsimp only
  rw [if_neg (by omega), if_pos h2]

lemma removeTrack_after (s : PlayerState) (i : Int) (h0 : 0 ≤ i)
    (h1 : i.toNat < s.playlist.length) (h2 : s.currentTrackIndex < i) :
    removeTrack i s =
      ({ s with revoked := s.revoked ++ [(s.playlist.get ⟨i.toNat, h1⟩).url],
                playlist := s.playlist.eraseIdx i.toNat }, false) := by
  unfold removeTrack
  rw [jsIndex_of_valid s.playlist i h0 h1]
  dsimp only
  rw [if_neg (by omega), if_neg (by omega)]

lemma removeTrack_current_rest (s : PlayerState) (i : Int) (h0 : 0 ≤ i)
    (h1 : i.toNat < s.playlist.length) (h2 : i = s.currentTrackIndex)
    (h3 : 0 < (s.playlist.eraseIdx i.toNat).length) :
    removeTrack i s =
      loadTrack (min i (((s.playlist.eraseIdx i.toNat).length : Int) - 1))
        { s with revoked := s.revoked ++ [(s.playlist.get ⟨i.toNat, h1⟩).url],
                 playlist := s.playlist.eraseIdx i.toNat } := by
  unfold removeTrack
  rw [jsIndex_of_valid s.playlist i h0 h1]
  dsimp only
  rw [if_pos h2, if_pos h3]

lemma removeTrack_current_last (s : PlayerState) (i : Int) (h0 : 0 ≤ i)
    (h1 : i.toNat < s.playlist.length) (h2 : i = s.currentTrackIndex)
    (h3 : ¬0 < (s.playlist.eraseIdx i.toNat).length) :
    removeTrack i s =
      ({ s with revoked := s.revoked ++ [(s.playlist.get ⟨i.toNat, h1⟩).url],
                playlist := s.playlist.eraseIdx i.toNat,
                currentTrackIndex := -1, audioPaused := true,
                audioSrc := none, isPlaying := false }, false) := by
  unfold removeTrack
  rw [jsIndex_of_valid s.playlist i h0 h1]
  dsimp only
  rw [if_pos h2, if_neg h3]

/-- C3: removing the track at the current selection: when tracks remain, the
new current index is min(removedIndex, newLength-1) (= min i (length-2)) and
that track is loaded into the engine and starts playing; when none remain, the
player goes idle with currentIndex = -1 and isPlaying = false. -/
theorem c3_removeCurrent (s : PlayerState) (i : Int) (h0 : 0 ≤ i)
    (h1 : i.toNat < s.playlist.length) (h2 : s.currentTrackIndex = i) :
    (removeTrack i s).2 = false ∧
    (if s.playlist.length = 1 then
      (removeTrack i s).1.currentTrackIndex = -1 ∧
      (removeTrack i s).1.isPlaying = false ∧
      (removeTrack i s).1.audioSrc = none
    else
      (removeTrack i s).1.currentTrackIndex = min i ((s.playlist.length : Int) - 2) ∧
      (removeTrack i s).1.isPlaying = true ∧
      (removeTrack i s).1.audioPaused = false ∧
      ∃ t : Track,
        (removeTrack i s).1.playlist.get?
            (min i ((s.playlist.length : Int) - 2)).toNat = some t ∧
        (removeTrack i s).1.audioSrc = some t.url) := by
  have hlen1 : (s.playlist.eraseIdx i.toNat).length = s.playlist.length - 1 :=
    List.length_eraseIdx_of_lt h1
  by_cases hone : s.playlist.length = 1
  · have h3 : ¬0 < (s.playlist.eraseIdx i.toNat).length := by omega
    rw [removeTrack_current_last s i h0 h1 h2.symm h3]
    simp [hone]
  · have hge2 : 2 ≤ s.playlist.length := by omega
    have h3 : 0 < (s.playlist.eraseIdx i.toNat).length := by omega
    rw [removeTrack_current_rest s i h0 h1 h2.symm h3]
    have hidx : min i (((s.playlist.eraseIdx i.toNat).length : Int) - 1) =
        min i ((s.playlist.length : Int) - 2) := by
      rw [hlen1]
      push_cast [Nat.cast_sub (by omega : 1 ≤ s.playlist.length)]
      ring_nf
    rw [hidx]
    have hnn : 0 ≤ min i ((s.playlist.length : Int) - 2) := by
      rw [le_min_iff]
      omega
    have hlt : (min i ((s.playlist.length : Int) - 2)).toNat <
        (s.playlist.eraseIdx i.toNat).length := by
      rw [hlen1]
      omega
    rw [loadTrack_valid _ _ hnn hlt]
    refine ⟨rfl, ?_⟩
    rw [if_neg hone]
    refine ⟨rfl, rfl, rfl, ?_⟩
    exact ⟨_, List.get?_eq_get hlt, rfl⟩

/-- C3 witness: the theorem applied to a two-track playlist with the current
track 0 removed. -/
theorem c3_removeCurrent_witness :
    (0 : Int) ≤ 0 ∧
    (0 : Int).toNat <
      (PlayerState.mk [⟨"a", 0⟩, ⟨"b", 1⟩] 0 true (some 0) false [] 2).playlist.length ∧
    (PlayerState.mk [⟨"a", 0⟩, ⟨"b", 1⟩] 0 true (some 0) false [] 2).currentTrackIndex = 0 ∧
    ((removeTrack 0 (PlayerState.mk [⟨"a", 0⟩, ⟨"b", 1⟩] 0 true (some 0) false [] 2)).2 = false ∧
    (if (PlayerState.mk [⟨"a", 0⟩, ⟨"b", 1⟩] 0 true (some 0) false [] 2).playlist.length = 1 then
      (removeTrack 0 (PlayerState.mk [⟨"a", 0⟩, ⟨"b", 1⟩] 0 true (some 0) false [] 2)).1.currentTrackIndex = -1 ∧
      (removeTrack 0 (PlayerState.mk [⟨"a", 0⟩, ⟨"b", 1⟩] 0 true (some 0) false [] 2)).1.isPlaying = false ∧
      (removeTrack 0 (PlayerState.mk [⟨"a", 0⟩, ⟨"b", 1⟩] 0 true (some 0) false [] 2)).1.audioSrc = none
    else
      (removeTrack 0 (PlayerState.mk [⟨"a", 0⟩, ⟨"b", 1⟩] 0 true (some 0) false [] 2)).1.currentTrackIndex =
        min 0 (((PlayerState.mk [⟨"a", 0⟩, ⟨"b", 1⟩] 0 true (some 0) false [] 2).playlist.length : Int) - 2) ∧
      (removeTrack 0 (PlayerState.mk [⟨"a", 0⟩, ⟨"b", 1⟩] 0 true (some 0) false [] 2)).1.isPlaying = true ∧
      (removeTrack 0 (PlayerState.mk [⟨"a", 0⟩, ⟨"b", 1⟩] 0 true (some 0) false [] 2)).1.audioPaused = false ∧
      ∃ t : Track,
        (removeTrack 0 (PlayerState.mk [⟨"a", 0⟩, ⟨"b", 1⟩] 0 true (some 0) false [] 2)).1.playlist.get?
            (min 0 (((PlayerState.mk [⟨"a", 0⟩, ⟨"b", 1⟩] 0 true (some 0) false [] 2).playlist.length : Int) - 2)).toNat = some t ∧
        (removeTrack 0 (PlayerState.mk [⟨"a", 0⟩, ⟨"b", 1⟩] 0 true (some 0) false [] 2)).1.audioSrc = some t.url)) :=
  ⟨by decide, by decide, by decide,
    c3_removeCurrent (PlayerState.mk [⟨"a", 0⟩, ⟨"b", 1⟩] 0 true (some 0) false [] 2)
      0 (by decide) (by decide) (by decide)⟩

/-- C5: removing a track strictly below the current selection decrements
currentIndex by one and performs no reload: the engine source, playing flag and
pause state are untouched. -/
theorem c5_removeBeforeCurrent (s : PlayerState) (i : Int) (h0 : 0 ≤ i)
    (h1 : i.toNat < s.playlist.length) (h2 : i < s.currentTrackIndex) :
    (removeTrack i s).2 = false ∧
    (removeTrack i s).1.currentTrackIndex = s.currentTrackIndex - 1 ∧
    (removeTrack i s).1.audioSrc = s.audioSrc ∧
    (removeTrack i s).1.isPlaying = s.isPlaying ∧
    (removeTrack i s).1.audioPaused = s.audioPaused := by
  rw [removeTrack_before s i h0 h1 h2]
  exact ⟨rfl, rfl, rfl, rfl, rfl⟩

/-- C5 witness: the theorem applied to a two-track playlist playing track 1
with track 0 removed. -/
theorem c5_removeBeforeCurrent_witness :
    (0 : Int) ≤ 0 ∧
    (0 : Int).toNat <
      (PlayerState.mk [⟨"a", 0⟩, ⟨"b", 1⟩] 1 true (some 1) false [] 2).playlist.length ∧
    (0 : Int) < (PlayerState.mk [⟨"a", 0⟩, ⟨"b", 1⟩] 1 true (some 1) false [] 2).currentTrackIndex ∧
    ((removeTrack 0 (PlayerState.mk [⟨"a", 0⟩, ⟨"b", 1⟩] 1 true (some 1) false [] 2)).2 = false ∧
    (removeTrack 0 (PlayerState.mk [⟨"a", 0⟩, ⟨"b", 1⟩] 1 true (some 1) false [] 2)).1.currentTrackIndex =
      (PlayerState.mk [⟨"a", 0⟩, ⟨"b", 1⟩] 1 true (some 1) false [] 2).currentTrackIndex - 1 ∧
    (removeTrack 0 (PlayerState.mk [⟨"a", 0⟩, ⟨"b", 1⟩] 1 true (some 1) false [] 2)).1.audioSrc =
      (PlayerState.mk [⟨"a", 0⟩, ⟨"b", 1⟩] 1 true (some 1) false [] 2).audioSrc ∧
    (removeTrack 0 (PlayerState.mk [⟨"a", 0⟩, ⟨"b", 1⟩] 1 true (some 1) false [] 2)).1.isPlaying =
      (PlayerState.mk [⟨"a", 0⟩, ⟨"b", 1⟩] 1 true (some 1) false [] 2).isPlaying ∧
    (removeTrack 0 (PlayerState.mk [⟨"a", 0⟩, ⟨"b", 1⟩] 1 true (some 1) false [] 2)).1.audioPaused =
      (PlayerState.mk [⟨"a", 0⟩, ⟨"b", 1⟩] 1 true (some 1) false [] 2).audioPaused) :=
  ⟨by decide, by decide, by decide,
    c5_removeBeforeCurrent (PlayerState.mk [⟨"a", 0⟩, ⟨"b", 1⟩] 1 true (some 1) false [] 2)
      0 (by decide) (by decide) (by decide)⟩

/-- C8 counterexample: on a one-track playlist with current index 0,
`loadTrack 5` fails (throws) but does NOT leave `currentTrackIndex` unchanged:
the source assigns `currentTrackIndex = index` before reading the undefined
array slot, so the index is left dangling at 5. -/
theorem c8_loadTrack_mutates_counterexample :
    (loadTrack 5 (PlayerState.mk [⟨"a", 0⟩] 0 true (some 0) false [] 1)).2 = true ∧
    (loadTrack 5 (PlayerState.mk [⟨"a", 0⟩] 0 true (some 0) false [] 1)).1.currentTrackIndex = 5 ∧
    (PlayerState.mk [⟨"a", 0⟩] 0 true (some 0) false [] 1).currentTrackIndex = 0 := by
  decide

/-- C8 amended: for every index outside [0, length), `loadTrack` fails (throws
a TypeError) leaving the playlist, engine source and playing flag unchanged but
with `currentTrackIndex` already overwritten by the invalid index, and
`removeTrack` fails (throws) with the whole state unchanged. -/
theorem c8_invalidIndex (s : PlayerState) (i : Int)
    (h : ¬(0 ≤ i ∧ i.toNat < s.playlist.length)) :
    (loadTrack i s).2 = true ∧
    (loadTrack i s).1.playlist = s.playlist ∧
    (loadTrack i s).1.currentTrackIndex = i ∧
    (loadTrack i s).1.audioSrc = s.audioSrc ∧
    (loadTrack i s).1.isPlaying = s.isPlaying ∧
    (removeTrack i s).2 = true ∧
    (removeTrack i s).1 = s := by
  rw [loadTrack_invalid s i h, removeTrack_invalid s i h]
  exact ⟨rfl, rfl, rfl, rfl, rfl, rfl, rfl⟩

/-- C8 witness: the amended theorem applied at index -3 of a one-track state. -/
theorem c8_invalidIndex_witness :
    ¬((0 : Int) ≤ -3 ∧
      (-3 : Int).toNat < (PlayerState.mk [⟨"a", 0⟩] 0 true (some 0) false [] 1).playlist.length) ∧
    ((loadTrack (-3) (PlayerState.mk [⟨"a", 0⟩] 0 true (some 0) false [] 1)).2 = true ∧
    (loadTrack (-3) (PlayerState.mk [⟨"a", 0⟩] 0 true (some 0) false [] 1)).1.playlist =
      (PlayerState.mk [⟨"a", 0⟩] 0 true (some 0) false [] 1).playlist ∧
    (loadTrack (-3) (PlayerState.mk [⟨"a", 0⟩] 0 true (some 0) false [] 1)).1.currentTrackIndex = -3 ∧
    (loadTrack (-3) (PlayerState.mk [⟨"a", 0⟩] 0 true (some 0) false [] 1)).1.audioSrc =
      (PlayerState.mk [⟨"a", 0⟩] 0 true (some 0) false [] 1).audioSrc ∧
    (loadTrack (-3) (PlayerState.mk [⟨"a", 0⟩] 0 true (some 0) false [] 1)).1.isPlaying =
      (PlayerState.mk [⟨"a", 0⟩] 0 true (some 0) false [] 1).isPlaying ∧
    (removeTrack (-3) (PlayerState.mk [⟨"a", 0⟩] 0 true (some 0) false [] 1)).2 = true ∧
    (removeTrack (-3) (PlayerState.mk [⟨"a", 0⟩] 0 true (some 0) false [] 1)).1 =
      PlayerState.mk [⟨"a", 0⟩] 0 true (some 0) false [] 1) :=
  ⟨by decide,
    c8_invalidIndex (PlayerState.mk [⟨"a", 0⟩] 0 true (some 0) false [] 1) (-3) (by decide)⟩

/-- C10: with a track selected, togglePlay only flips isPlaying (pausing or
resuming the engine); playlist, selection and loaded source are unchanged, and
toggling twice restores the original playing flag. -/
theorem c10_togglePlay_flips (s : PlayerState) (h : 0 ≤ s.currentTrackIndex) :
    (togglePlay s).2 = false ∧
    (togglePlay s).1.isPlaying = !s.isPlaying ∧
    (togglePlay s).1.audioPaused = s.isPlaying ∧
    (togglePlay s).1.playlist = s.playlist ∧
    (togglePlay s).1.currentTrackIndex = s.currentTrackIndex ∧
    (togglePlay s).1.audioSrc = s.audioSrc ∧
    (togglePlay (togglePlay s).1).1.isPlaying = s.isPlaying := by
  have hne : ¬s.currentTrackIndex = -1 := by omega
  cases hp : s.isPlaying <;>
    simp [togglePlay, pauseTrack, playTrack, hne, hp]

/-- C10 witness: the theorem applied to a one-track playing state. -/
theorem c10_togglePlay_flips_witness :
    (0 : Int) ≤ (PlayerState.mk [⟨"a", 0⟩] 0 true (some 0) false [] 1).currentTrackIndex ∧
    ((togglePlay (PlayerState.mk [⟨"a", 0⟩] 0 true (some 0) false [] 1)).2 = false ∧
    (togglePlay (PlayerState.mk [⟨"a", 0⟩] 0 true (some 0) false [] 1)).1.isPlaying =
      !(PlayerState.mk [⟨"a", 0⟩] 0 true (some 0) false [] 1).isPlaying ∧
    (togglePlay (PlayerState.mk [⟨"a", 0⟩] 0 true (some 0) false [] 1)).1.audioPaused =
      (PlayerState.mk [⟨"a", 0⟩] 0 true (some 0) false [] 1).isPlaying ∧
    (togglePlay (PlayerState.mk [⟨"a", 0⟩] 0 true (some 0) false [] 1)).1.playlist =
      (PlayerState.mk [⟨"a", 0⟩] 0 true (some 0) false [] 1).playlist ∧
    (togglePlay (PlayerState.mk [⟨"a", 0⟩] 0 true (some 0) false [] 1)).1.currentTrackIndex =
      (PlayerState.mk [⟨"a", 0⟩] 0 true (some 0) false [] 1).currentTrackIndex ∧
    (togglePlay (PlayerState.mk [⟨"a", 0⟩] 0 true (some 0) false [] 1)).1.audioSrc =
      (PlayerState.mk [⟨"a", 0⟩] 0 true (some 0) false [] 1).audioSrc ∧
    (togglePlay (togglePlay (PlayerState.mk [⟨"a", 0⟩] 0 true (some 0) false [] 1)).1).1.isPlaying =
      (PlayerState.mk [⟨"a", 0⟩] 0 true (some 0) false [] 1).isPlaying) :=
  ⟨by decide,
    c10_togglePlay_flips (PlayerState.mk [⟨"a", 0⟩] 0 true (some 0) false [] 1) (by decide)⟩

/-- C2 failing input: on an empty playlist (the initial state) `playNext` is
NOT a silent no-op: it runs `loadTrack(0)`, which first sets
`currentTrackIndex` to 0 — a dangling index in an empty playlist — and then
throws a TypeError reading `.url` of `undefined`; `playPrev` likewise throws
(it happens to leave `currentTrackIndex` at -1). On non-empty playlists the
claimed wrap-around behaviour does hold, evaluated here on playlists of length
1 and 2: next at the last index loads 0, prev at index 0 loads the last. -/
theorem c2_empty_playlist_throws :
    (playNext initState).2 = true ∧
    (playNext initState).1.currentTrackIndex = 0 ∧
    (playNext initState).1.playlist = [] ∧
    (playNext initState).1.isPlaying = false ∧
    (playPrev initState).2 = true ∧
    (playPrev initState).1.currentTrackIndex = -1 ∧
    (playNext (PlayerState.mk [⟨"a", 0⟩, ⟨"b", 1⟩] 1 true (some 1) false [] 2)).1.currentTrackIndex = 0 ∧
    (playNext (PlayerState.mk [⟨"a", 0⟩, ⟨"b", 1⟩] 1 true (some 1) false [] 2)).1.audioSrc = some 0 ∧
    (playNext (PlayerState.mk [⟨"a", 0⟩, ⟨"b", 1⟩] 0 true (some 0) false [] 2)).1.currentTrackIndex = 1 ∧
    (playPrev (PlayerState.mk [⟨"a", 0⟩, ⟨"b", 1⟩] 0 true (some 0) false [] 2)).1.currentTrackIndex = 1 ∧
    (playPrev (PlayerState.mk [⟨"a", 0⟩, ⟨"b", 1⟩] 0 true (some 0) false [] 2)).1.audioSrc = some 1 ∧
    (playPrev (PlayerState.mk [⟨"a", 0⟩, ⟨"b", 1⟩] 1 true (some 1) false [] 2)).1.currentTrackIndex = 0 ∧
    (playNext (PlayerState.mk [⟨"s", 0⟩] 0 true (some 0) false [] 1)).1.currentTrackIndex = 0 ∧
    (playPrev (PlayerState.mk [⟨"s", 0⟩] 0 true (some 0) false [] 1)).1.currentTrackIndex = 0 := by
  decide

/-- C6 failing input: click Next on an empty playlist (corrupting
`currentTrackIndex` to 0 via the C2 fault), then drop one valid MP3 file. The
playlist was previously empty, yet `handleFiles` does not start playback: the
auto-load guard tests `currentTrackIndex === -1`, not emptiness, so the track
is appended with `isPlaying = false` and no engine source. -/
theorem c6_add_after_corruption_no_autoplay :
    (playNext initState).1.playlist = [] ∧
    (handleFiles [⟨"song.mp3", 1000, "audio/mpeg"⟩] (playNext initState).1).1.playlist.length = 1 ∧
    (handleFiles [⟨"song.mp3", 1000, "audio/mpeg"⟩] (playNext initState).1).1.currentTrackIndex = 0 ∧
    (handleFiles [⟨"song.mp3", 1000, "audio/mpeg"⟩] (playNext initState).1).1.isPlaying = false ∧
    (handleFiles [⟨"song.mp3", 1000, "audio/mpeg"⟩] (playNext initState).1).1.audioSrc = none := by
  decide

lemma foldl_handleOneFile_spec (files : List JsFile) :
    ∀ (s : PlayerState) (v iv : Nat),
      ∃ extra : List Track,
        (files.foldl handleOneFile (s, v, iv)).1.playlist = s.playlist ++ extra ∧
        (files.foldl handleOneFile (s, v, iv)).1.currentTrackIndex = s.currentTrackIndex ∧
        (files.foldl handleOneFile (s, v, iv)).1.isPlaying = s.isPlaying ∧
        (files.foldl handleOneFile (s, v, iv)).1.audioSrc = s.audioSrc ∧
        (files.foldl handleOneFile (s, v, iv)).1.audioPaused = s.audioPaused ∧
        (files.foldl handleOneFile (s, v, iv)).1.revoked = s.revoked ∧
        s.nextUrl ≤ (files.foldl handleOneFile (s, v, iv)).1.nextUrl ∧
        (∀ t ∈ extra,
          s.nextUrl ≤ t.url ∧ t.url < (files.foldl handleOneFile (s, v, iv)).1.nextUrl) ∧
        (extra.map Track.url).Nodup ∧
        v ≤ (files.foldl handleOneFile (s, v, iv)).2.1 ∧
        (v < (files.foldl handleOneFile (s, v, iv)).2.1 → extra ≠ []) := by
  induction files with
  | nil =>
    intro s v iv
    rw [List.foldl_nil]
    exact ⟨[], by simp, rfl, rfl, rfl, rfl, rfl, le_refl _, by simp, by simp,
      le_refl _, fun h => absurd h (lt_irrefl v)⟩
  | cons f fs ih =>
    intro s v iv
    rw [List.foldl_cons]
    by_cases hsize : MAX_FILE_SIZE < f.size
    · have hstep : handleOneFile (s, v, iv) f = (s, v, iv + 1) := by
        unfold handleOneFile
        rw [if_pos hsize]
      rw [hstep]
      exact ih s v (iv + 1)
    · by_cases hmp3 : checkIfMp3 f = true
      · have hstep : handleOneFile (s, v, iv) f =
            ({ s with
                playlist := s.playlist ++ [{ name := stripExt f.name, url := s.nextUrl }],
                nextUrl := s.nextUrl + 1 }, v + 1, iv) := by
          unfold handleOneFile
          rw [if_neg hsize, if_pos hmp3]
        rw [hstep]
        obtain ⟨extra, hpl, hcur, hplay, hsrc, hpause, hrev, hnext, hbound, hnd, hv, hvne⟩ :=
          ih { s with
                playlist := s.playlist ++ [{ name := stripExt f.name, url := s.nextUrl }],
                nextUrl := s.nextUrl + 1 } (v + 1) iv
        dsimp only at hpl hcur hplay hsrc hpause hrev hnext hbound hv hvne
        refine ⟨{ name := stripExt f.name, url := s.nextUrl } :: extra,
          ?_, hcur, hplay, hsrc, hpause, hrev, by omega, ?_, ?_, by omega, ?_⟩
        · rw [hpl]
          simp
        · intro t ht
          rcases List.mem_cons.mp ht with h | h
          · subst h
            exact ⟨le_refl _, by dsimp only; omega⟩
          · have hb := hbound t h
            exact ⟨by omega, hb.2⟩
        · rw [List.map_cons, List.nodup_cons]
          refine ⟨?_, hnd⟩
          intro hmem
          rw [List.mem_map] at hmem
          obtain ⟨t, ht, hturl⟩ := hmem
          have hb := (hbound t ht).1
          dsimp only at hturl
          omega
        · intro _
          exact List.cons_ne_nil _ _
      · have hstep : handleOneFile (s, v, iv) f = (s, v, iv + 1) := by
          unfold handleOneFile
          rw [if_neg hsize, if_neg hmp3]
        rw [hstep]
        exact ih s v (iv + 1)

/-- The index invariant of the Track Store: the selection is -1 or a valid
playlist position. -/
def IndexOK (s : PlayerState) : Prop :=
  s.currentTrackIndex = -1 ∨
    (0 ≤ s.currentTrackIndex ∧ s.currentTrackIndex < (s.playlist.length : Int))

lemma handleFiles_indexOK (files : List JsFile) (s : PlayerState) (h : IndexOK s) :
    IndexOK (handleFiles files s).1 := by
  obtain ⟨extra, hpl, hcur, _, _, _, _, _, _, _, hv, hvne⟩ :=
    foldl_handleOneFile_spec files s 0 0
  unfold handleFiles
  by_cases hval : 0 < (files.foldl handleOneFile (s, 0, 0)).2.1
  · rw [if_pos hval]
    by_cases hcur1 : (files.foldl handleOneFile (s, 0, 0)).1.currentTrackIndex = -1
    · rw [if_pos hcur1]
      have hne : extra ≠ [] := hvne hval
      have hlen : 0 < (files.foldl handleOneFile (s, 0, 0)).1.playlist.length := by
        rw [hpl, List.length_append]
        have := List.length_pos.mpr hne
        omega
      rw [loadTrack_valid _ 0 (by omega) (by omega)]
      dsimp only [IndexOK]
      right
      constructor
      · omega
      · omega
    · rw [if_neg hcur1]
      rcases h with h | h
      · exact absurd (hcur.trans h) hcur1
      · right
        rw [hcur, hpl, List.length_append]
        push_cast
        omega
  · rw [if_neg hval]
    rcases h with h | h
    · left
      exact hcur.trans h
    · right
      rw [hcur, hpl, List.length_append]
      push_cast
      omega

lemma removeTrack_indexOK (s : PlayerState) (i : Int) (h : IndexOK s) :
    IndexOK (removeTrack i s).1 := by
  by_cases hvalid : 0 ≤ i ∧ i.toNat < s.playlist.length
  · obtain ⟨h0, h1⟩ := hvalid
    have hlen1 : (s.playlist.eraseIdx i.toNat).length = s.playlist.length - 1 :=
      List.length_eraseIdx_of_lt h1
    rcases lt_trichotomy i s.currentTrackIndex with hlt | heq | hgt
    · rw [removeTrack_before s i h0 h1 hlt]
      rcases h with h | h
      · exfalso
        omega
      · right
        dsimp only
        rw [hlen1]
        constructor
        · omega
        · have hcast : s.currentTrackIndex < (s.playlist.length : Int) := h.2
          have hi : (i.toNat : Int) = i := Int.toNat_of_nonneg h0
          omega
    · by_cases h3 : 0 < (s.playlist.eraseIdx i.toNat).length
      · rw [removeTrack_current_rest s i h0 h1 heq h3]
        have hnn : 0 ≤ min i (((s.playlist.eraseIdx i.toNat).length : Int) - 1) := by
          rw [le_min_iff]
          omega
        have hlt2 : (min i (((s.playlist.eraseIdx i.toNat).length : Int) - 1)).toNat <
            (s.playlist.eraseIdx i.toNat).length := by
          have hi : (i.toNat : Int) = i := Int.toNat_of_nonneg h0
          rw [min_def]
          split <;> omega
        rw [loadTrack_valid _ _ hnn hlt2]
        right
        dsimp only
        constructor
        · exact hnn
        · omega
      · rw [removeTrack_current_last s i h0 h1 heq h3]
        left
        rfl
    · rw [removeTrack_after s i h0 h1 hgt]
      rcases h with h | h
      · left
        exact h
      · right
        dsimp only
        rw [hlen1]
        have hi : (i.toNat : Int) = i := Int.toNat_of_nonneg h0
        constructor
        · exact h.1
        · omega
  · rw [removeTrack_invalid s i hvalid]
    exact h

/-- One user operation for the add/remove sequences of the Track Store:
dropping a batch of files, or clicking remove on an index. -/
inductive AddRemoveOp where
  | addOp (files : List JsFile)
  | removeOp (index : Int)

/-- Effect of one add/remove operation on the player state (exceptions leave
the partially mutated state, as in the source). -/
def applyAddRemove (s : PlayerState) (op : AddRemoveOp) : PlayerState :=
  match op with
  | .addOp files => (handleFiles files s).1
  | .removeOp i => (removeTrack i s).1

/-- The player state after a sequence of add/remove operations from startup. -/
def runAddRemove (ops : List AddRemoveOp) : PlayerState :=
  ops.foldl applyAddRemove initState

/-- C1: after every sequence of add and remove operations from the initial
empty state, currentIndex is -1 or a valid playlist index — never dangling. -/
theorem c1_currentIndex_never_dangling (ops : List AddRemoveOp) :
    (runAddRemove ops).currentTrackIndex = -1 ∨
    (0 ≤ (runAddRemove ops).currentTrackIndex ∧
      (runAddRemove ops).currentTrackIndex < ((runAddRemove ops).playlist.length : Int)) := by
  suffices h : ∀ (l : List AddRemoveOp) (s : PlayerState),
      IndexOK s → IndexOK (l.foldl applyAddRemove s) by
    exact h ops initState (Or.inl rfl)
  intro l
  induction l with
  | nil => exact fun s hs => hs
  | cons op t ih =>
    intro s hs
    rw [List.foldl_cons]
    refine ih _ ?_
    cases op with
    | addOp files => exact handleFiles_indexOK files s hs
    | removeOp i => exact removeTrack_indexOK s i hs

/-- The inbound events of the player: user gestures wired by
setupEventListeners and renderPlaylist, plus the media-engine events. Track and
remove clicks carry indices the rendered list produced, hence within the
playlist at dispatch time (the list is re-rendered after every mutation). -/
inductive Event where
  | filesAdded (files : List JsFile)
  | trackClicked (i : Nat)
  | removeClicked (i : Nat)
  | playPauseClicked
  | prevClicked
  | nextClicked
  | trackEnded
  | engineError

/-- One event-handler run to completion (script.js lines 27-52: the listener
table; the ended event is wired to playNext, the error event to a handler that
pauses). -/
def stepEvent (s : PlayerState) (e : Event) : PlayerState :=
  match e with
  | .filesAdded fs => (handleFiles fs s).1
  | .trackClicked i => if i < s.playlist.length then (loadTrack i s).1 else s
  | .removeClicked i => if i < s.playlist.length then (removeTrack i s).1 else s
  | .playPauseClicked => (togglePlay s).1
  | .prevClicked => (playPrev s).1
  | .nextClicked => (playNext s).1
  | .trackEnded => (playNext s).1
  | .engineError => pauseTrack s

/-- The player state reached after a sequence of events from startup. -/
def runEvents (evs : List Event) : PlayerState := evs.foldl stepEvent initState

/-- Resource invariant of the Track Store and Playback Controller: object URLs
are allocated from the fresh counter, playlist URLs are pairwise distinct and
unrevoked, the revocation list has no duplicates, and the engine source is
either empty or the URL of the currently selected playlist entry. -/
def URLInv (s : PlayerState) : Prop :=
  (∀ t ∈ s.playlist, t.url < s.nextUrl) ∧
  (∀ u ∈ s.revoked, u < s.nextUrl) ∧
  (s.playlist.map Track.url).Nodup ∧
  s.revoked.Nodup ∧
  (∀ t ∈ s.playlist, t.url ∉ s.revoked) ∧
  (-1 ≤ s.currentTrackIndex) ∧
  (s.audioSrc = none ∨
    (0 ≤ s.currentTrackIndex ∧ s.currentTrackIndex < (s.playlist.length : Int) ∧
      (s.playlist[s.currentTrackIndex.toNat]?).map Track.url = s.audioSrc))

lemma map_eraseIdx_track (f : Track → Nat) :
    ∀ (l : List Track) (n : Nat), (l.eraseIdx n).map f = (l.map f).eraseIdx n := by
  intro l
  induction l with
  | nil => intro n; rfl
  | cons x xs ih =>
    intro n
    cases n with
    | zero => rfl
    | succ m =>
      show f x :: (xs.eraseIdx m).map f = f x :: (xs.map f).eraseIdx m
      rw [ih m]

lemma nodup_get_not_mem_eraseIdx :
    ∀ (L : List Nat) (n : Nat) (hn : n < L.length), L.Nodup →
      L.get ⟨n, hn⟩ ∉ L.eraseIdx n := by
  intro L
  induction L with
  | nil => intro n hn; simp at hn
  | cons x xs ih =>
    intro n hn hnd
    rw [List.nodup_cons] at hnd
    cases n with
    | zero =>
      simpa using hnd.1
    | succ m =>
      have hm : m < xs.length := by simpa using hn
      show xs.get ⟨m, hm⟩ ∉ x :: xs.eraseIdx m
      rw [List.mem_cons]
      rintro (h | h)
      · exact hnd.1 (h ▸ List.get_mem xs m hm)
      · exact ih m hm hnd.2 h

lemma url_ne_of_mem_eraseIdx (l : List Track) (n : Nat) (hn : n < l.length)
    (hnd : (l.map Track.url).Nodup) (t' : Track) (ht' : t' ∈ l.eraseIdx n) :
    t'.url ≠ (l.get ⟨n, hn⟩).url := by
  intro hEq
  have hmem : t'.url ∈ (l.eraseIdx n).map Track.url := List.mem_map_of_mem _ ht'
  rw [map_eraseIdx_track] at hmem
  have hnl : n < (l.map Track.url).length := by simpa using hn
  have hget : (l.map Track.url).get ⟨n, hnl⟩ = (l.get ⟨n, hn⟩).url := by
    simp
  exact nodup_get_not_mem_eraseIdx (l.map Track.url) n hnl hnd (hget ▸ hEq ▸ hmem)

lemma loadTrack_URLInv (s : PlayerState) (i : Int) (hInv : URLInv s)
    (hm1 : -1 ≤ i)
    (hsrc : s.audioSrc ≠ none → 0 ≤ i ∧ i.toNat < s.playlist.length) :
    URLInv (loadTrack i s).1 := by
  obtain ⟨ha, hb, hc, hd, he, hg, hf⟩ := hInv
  by_cases hv : 0 ≤ i ∧ i.toNat < s.playlist.length
  · rw [loadTrack_valid s i hv.1 hv.2]
    refine ⟨ha, hb, hc, hd, he,
      (by omega : (-1 : Int) ≤ i),
      Or.inr ⟨hv.1, (by omega : i < (s.playlist.length : Int)), ?_⟩⟩
    show (s.playlist[i.toNat]?).map Track.url = some ((s.playlist.get ⟨i.toNat, hv.2⟩).url)
    rw [List.getElem?_eq_getElem hv.2]
    rfl
  · rw [loadTrack_invalid s i hv]
    refine ⟨ha, hb, hc, hd, he, (by omega : (-1 : Int) ≤ i), Or.inl ?_⟩
    show s.audioSrc = none
    rcases hf with hf | hf
    · exact hf
    · rcases hso : s.audioSrc with _ | u
      · rfl
      · exact absurd (hsrc (by rw [hso]; exact Option.some_ne_none u)) hv

lemma playTrack_URLInv (s : PlayerState) (hInv : URLInv s) :
    URLInv (playTrack s) := hInv

lemma pauseTrack_URLInv (s : PlayerState) (hInv : URLInv s) :
    URLInv (pauseTrack s) := hInv

lemma removeTrack_URLInv (s : PlayerState) (i : Int) (hInv : URLInv s) :
    URLInv (removeTrack i s).1 := by
  obtain ⟨ha, hb, hc, hd, he, hg, hf⟩ := hInv
  by_cases hvalid : 0 ≤ i ∧ i.toNat < s.playlist.length
  case neg =>
    rw [removeTrack_invalid s i hvalid]
    exact ⟨ha, hb, hc, hd, he, hg, hf⟩
  obtain ⟨h0, h1⟩ := hvalid
  have hmem : s.playlist.get ⟨i.toNat, h1⟩ ∈ s.playlist := List.get_mem _ _ _
  have hsub : List.Sublist (s.playlist.eraseIdx i.toNat) s.playlist :=
    List.eraseIdx_sublist _ _
  have hlen1 : (s.playlist.eraseIdx i.toNat).length = s.playlist.length - 1 :=
    List.length_eraseIdx_of_lt h1
  have hlenc : ((s.playlist.eraseIdx i.toNat).length : Int) =
      (s.playlist.length : Int) - 1 := by
    rw [hlen1]
    have : 1 ≤ s.playlist.length := by omega
    push_cast [Nat.cast_sub this]
    ring
  have ha' : ∀ t' ∈ s.playlist.eraseIdx i.toNat, t'.url < s.nextUrl :=
    fun t' ht' => ha t' (hsub.subset ht')
  have hb' : ∀ u ∈ s.revoked ++ [(s.playlist.get ⟨i.toNat, h1⟩).url], u < s.nextUrl := by
    intro u hu
    rcases List.mem_append.mp hu with hu | hu
    · exact hb u hu
    · rw [List.mem_singleton] at hu
      subst hu
      exact ha _ hmem
  have hc' : ((s.playlist.eraseIdx i.toNat).map Track.url).Nodup :=
    (hsub.map Track.url).nodup hc
  have hd' : (s.revoked ++ [(s.playlist.get ⟨i.toNat, h1⟩).url]).Nodup := by
    rw [List.nodup_append]
    refine ⟨hd, List.nodup_singleton _, ?_⟩
    intro u hu hu2
    rw [List.mem_singleton] at hu2
    subst hu2
    exact he _ hmem hu
  have he' : ∀ t' ∈ s.playlist.eraseIdx i.toNat,
      t'.url ∉ s.revoked ++ [(s.playlist.get ⟨i.toNat, h1⟩).url] := by
    intro t' ht' hu
    rcases List.mem_append.mp hu with hu | hu
    · exact he t' (hsub.subset ht') hu
    · rw [List.mem_singleton] at hu
      exact url_ne_of_mem_eraseIdx s.playlist i.toNat h1 hc t' ht' hu
  rcases lt_trichotomy i s.currentTrackIndex with hlt | heq | hgt
  · rw [removeTrack_before s i h0 h1 hlt]
    refine ⟨ha', hb', hc', hd', he',
      (by omega : (-1 : Int) ≤ s.currentTrackIndex - 1), ?_⟩
    show s.audioSrc = none ∨
      (0 ≤ s.currentTrackIndex - 1 ∧
        s.currentTrackIndex - 1 < ((s.playlist.eraseIdx i.toNat).length : Int) ∧
        ((s.playlist.eraseIdx i.toNat)[(s.currentTrackIndex - 1).toNat]?).map Track.url =
          s.audioSrc)
    rcases hf with hfn | ⟨hf0, hf1, hf2⟩
    · exact Or.inl hfn
    · right
      refine ⟨by omega, by omega, ?_⟩
      have hj : i.toNat ≤ (s.currentTrackIndex - 1).toNat := by omega
      rw [List.getElem?_eraseIdx_of_ge _ _ _ hj]
      have hsucc : (s.currentTrackIndex - 1).toNat + 1 = s.currentTrackIndex.toNat := by
        omega
      rw [hsucc]
      exact hf2
  · by_cases h3 : 0 < (s.playlist.eraseIdx i.toNat).length
    · rw [removeTrack_current_rest s i h0 h1 heq h3]
      have hnn : 0 ≤ min i (((s.playlist.eraseIdx i.toNat).length : Int) - 1) := by
        rw [le_min_iff]
        omega
      have hlt2 : (min i (((s.playlist.eraseIdx i.toNat).length : Int) - 1)).toNat <
          (s.playlist.eraseIdx i.toNat).length := by
        rw [min_def]
        split <;> omega
      rw [loadTrack_valid _ _ hnn hlt2]
      refine ⟨ha', hb', hc', hd', he', ?_, Or.inr ⟨hnn, ?_, ?_⟩⟩
      · show (-1 : Int) ≤ min i (((s.playlist.eraseIdx i.toNat).length : Int) - 1)
        exact le_trans (by norm_num) hnn
      · show min i (((s.playlist.eraseIdx i.toNat).length : Int) - 1) <
          ((s.playlist.eraseIdx i.toNat).length : Int)
        have hmr := min_le_right i (((s.playlist.eraseIdx i.toNat).length : Int) - 1)
        omega
      show ((s.playlist.eraseIdx i.toNat)[(min i
          (((s.playlist.eraseIdx i.toNat).length : Int) - 1)).toNat]?).map Track.url =
        some (((s.playlist.eraseIdx i.toNat).get ⟨_, hlt2⟩).url)
      rw [List.getElem?_eq_getElem hlt2]
      rfl
    · rw [removeTrack_current_last s i h0 h1 heq h3]
      exact ⟨ha', hb', hc', hd', he', by norm_num, Or.inl rfl⟩
  · rw [removeTrack_after s i h0 h1 hgt]
    refine ⟨ha', hb', hc', hd', he', hg, ?_⟩
    show s.audioSrc = none ∨
      (0 ≤ s.currentTrackIndex ∧
        s.currentTrackIndex < ((s.playlist.eraseIdx i.toNat).length : Int) ∧
        ((s.playlist.eraseIdx i.toNat)[s.currentTrackIndex.toNat]?).map Track.url =
          s.audioSrc)
    rcases hf with hfn | ⟨hf0, hf1, hf2⟩
    · exact Or.inl hfn
    · right
      refine ⟨hf0, by omega, ?_⟩
      have hj : s.currentTrackIndex.toNat < i.toNat := by omega
      rw [List.getElem?_eraseIdx_of_lt _ _ _ hj]
      exact hf2

lemma loadTrack_revoked (j : Int) (s : PlayerState) :
    (loadTrack j s).1.revoked = s.revoked := by
  unfold loadTrack
  dsimp only
  rcases h : jsIndex s.playlist j with _ | tr <;> rfl

lemma handleFiles_URLInv (files : List JsFile) (s : PlayerState) (hInv : URLInv s) :
    URLInv (handleFiles files s).1 := by
  obtain ⟨ha, hb, hc, hd, he, hg, hf⟩ := hInv
  obtain ⟨extra, hpl, hcur, hplay, hsrc, hpause, hrev, hnext, hbound, hnd, hv, hvne⟩ :=
    foldl_handleOneFile_spec files s 0 0
  set acc := files.foldl handleOneFile (s, 0, 0) with hacc
  have hInv1 : URLInv acc.1 := by
    refine ⟨?_, ?_, ?_, ?_, ?_, ?_, ?_⟩
    · intro t ht
      rw [hpl] at ht
      rcases List.mem_append.mp ht with h | h
      · exact lt_of_lt_of_le (ha t h) hnext
      · exact (hbound t h).2
    · intro u hu
      rw [hrev] at hu
      exact lt_of_lt_of_le (hb u hu) hnext
    · rw [hpl, List.map_append, List.nodup_append]
      refine ⟨hc, hnd, ?_⟩
      intro u hu hu2
      rw [List.mem_map] at hu hu2
      obtain ⟨t1, ht1, rfl⟩ := hu
      obtain ⟨t2, ht2, hq⟩ := hu2
      have hlt1 := ha t1 ht1
      have hlt2 := (hbound t2 ht2).1
      omega
    · rw [hrev]
      exact hd
    · intro t ht
      rw [hpl] at ht
      rw [hrev]
      rcases List.mem_append.mp ht with h | h
      · exact he t h
      · intro hmemRev
        have hub := hb _ hmemRev
        have hlb := (hbound t h).1
        omega
    · rw [hcur]
      exact hg
    · rw [hsrc, hcur, hpl]
      rcases hf with hfn | ⟨hf0, hf1, hf2⟩
      · exact Or.inl hfn
      · right
        refine ⟨hf0, ?_, ?_⟩
        · rw [List.length_append]
          push_cast
          omega
        · rw [List.getElem?_append_left
            (by omega : s.currentTrackIndex.toNat < s.playlist.length)]
          exact hf2
  by_cases hval : 0 < acc.2.1
  · by_cases hcur1 : acc.1.currentTrackIndex = -1
    · have hbr : handleFiles files s = loadTrack 0 acc.1 := by
        unfold handleFiles
        rw [← hacc, if_pos hval, if_pos hcur1]
      rw [hbr]
      have hlen : 0 < acc.1.playlist.length := by
        rw [hpl, List.length_append]
        have := List.length_pos.mpr (hvne hval)
        omega
      exact loadTrack_URLInv acc.1 0 hInv1 (by norm_num)
        (fun _ => ⟨le_refl 0, by omega⟩)
    · have hbr : handleFiles files s = (acc.1, false) := by
        unfold handleFiles
        rw [← hacc, if_pos hval, if_neg hcur1]
      rw [hbr]
      exact hInv1
  · have hbr : handleFiles files s = (acc.1, false) := by
      unfold handleFiles
      rw [← hacc, if_neg hval]
    rw [hbr]
    exact hInv1

lemma togglePlay_URLInv (s : PlayerState) (hInv : URLInv s) :
    URLInv (togglePlay s).1 := by
  unfold togglePlay
  by_cases hcur : s.currentTrackIndex = -1
  · rw [if_pos hcur]
    by_cases hlen : 0 < s.playlist.length
    · rw [if_pos hlen]
      exact loadTrack_URLInv s 0 hInv (by norm_num) (fun _ => ⟨le_refl 0, by omega⟩)
    · rw [if_neg hlen]
      exact hInv
  · rw [if_neg hcur]
    by_cases hp : s.isPlaying
    · rw [if_pos hp]
      exact pauseTrack_URLInv s hInv
    · rw [if_neg hp]
      exact playTrack_URLInv s hInv

lemma playPrev_URLInv (s : PlayerState) (hInv : URLInv s) :
    URLInv (playPrev s).1 := by
  obtain ⟨ha, hb, hc, hd, he, hg, hf⟩ := hInv
  unfold playPrev
  by_cases hcur : 0 < s.currentTrackIndex
  · rw [if_pos hcur]
    refine loadTrack_URLInv s _ ⟨ha, hb, hc, hd, he, hg, hf⟩ (by omega) ?_
    intro hs
    rcases hf with hfn | ⟨hf0, hf1, hf2⟩
    · exact absurd hfn hs
    · exact ⟨by omega, by omega⟩
  · rw [if_neg hcur]
    refine loadTrack_URLInv s _ ⟨ha, hb, hc, hd, he, hg, hf⟩ (by omega) ?_
    intro hs
    rcases hf with hfn | ⟨hf0, hf1, hf2⟩
    · exact absurd hfn hs
    · exact ⟨by omega, by omega⟩

lemma playNext_URLInv (s : PlayerState) (hInv : URLInv s) :
    URLInv (playNext s).1 := by
  obtain ⟨ha, hb, hc, hd, he, hg, hf⟩ := hInv
  unfold playNext
  by_cases hcur : s.currentTrackIndex < (s.playlist.length : Int) - 1
  · rw [if_pos hcur]
    exact loadTrack_URLInv s _ ⟨ha, hb, hc, hd, he, hg, hf⟩ (by omega)
      (fun _ => ⟨by omega, by omega⟩)
  · rw [if_neg hcur]
    refine loadTrack_URLInv s 0 ⟨ha, hb, hc, hd, he, hg, hf⟩ (by norm_num) ?_
    intro hs
    rcases hf with hfn | ⟨hf0, hf1, hf2⟩
    · exact absurd hfn hs
    · exact ⟨le_refl 0, by omega⟩

lemma runEvents_URLInv (evs : List Event) : URLInv (runEvents evs) := by
  suffices h : ∀ (l : List Event) (s : PlayerState),
      URLInv s → URLInv (l.foldl stepEvent s) from
    h evs initState
      ⟨by simp [initState], by simp [initState], by simp [initState],
        by simp [initState], by simp [initState], by norm_num [initState],
        Or.inl rfl⟩
  intro l
  induction l with
  | nil => exact fun s hs => hs
  | cons e t ih =>
    intro s hs
    rw [List.foldl_cons]
    refine ih _ ?_
    cases e with
    | filesAdded fs => exact handleFiles_URLInv fs s hs
    | trackClicked i =>
      show URLInv (if i < s.playlist.length then (loadTrack i s).1 else s)
      by_cases hi : i < s.playlist.length
      · rw [if_pos hi]
        exact loadTrack_URLInv s i hs (by omega) (fun _ => ⟨by omega, by omega⟩)
      · rw [if_neg hi]
        exact hs
    | removeClicked i =>
      show URLInv (if i < s.playlist.length then (removeTrack i s).1 else s)
      by_cases hi : i < s.playlist.length
      · rw [if_pos hi]
        exact removeTrack_URLInv s i hs
      · rw [if_neg hi]
        exact hs
    | playPauseClicked => exact togglePlay_URLInv s hs
    | prevClicked => exact playPrev_URLInv s hs
    | nextClicked => exact playNext_URLInv s hs
    | trackEnded => exact playNext_URLInv s hs
    | engineError => exact pauseTrack_URLInv s hs

/-- C4: over every event sequence from startup, revoked URLs are pairwise
distinct (each URL is revoked at most once), the engine's loaded source is
never a revoked URL (each handler runs to completion, so the engine only
observes the states between events; removing the current track replaces the
source within the same removal), and no URL still in the playlist is revoked;
moreover a valid removeTrack appends exactly the removed track's URL to the
revocation list — revocation happens exactly at removal. -/
theorem c4_url_discipline :
    (∀ evs : List Event,
      (runEvents evs).revoked.Nodup ∧
      (∀ u ∈ (runEvents evs).revoked, (runEvents evs).audioSrc ≠ some u) ∧
      (∀ t ∈ (runEvents evs).playlist, t.url ∉ (runEvents evs).revoked)) ∧
    (∀ (s : PlayerState) (i : Int) (track : Track),
      jsIndex s.playlist i = some track →
      (removeTrack i s).1.revoked = s.revoked ++ [track.url]) := by
  constructor
  · intro evs
    obtain ⟨ha, hb, hc, hd, he, hg, hf⟩ := runEvents_URLInv evs
    refine ⟨hd, ?_, he⟩
    intro u hu hsome
    rcases hf with hfn | ⟨hf0, hf1, hf2⟩
    · rw [hfn] at hsome
      exact Option.noConfusion hsome
    · rw [hsome] at hf2
      rcases hget : (runEvents evs).playlist[(runEvents evs).currentTrackIndex.toNat]?
        with _ | tc
      · rw [hget] at hf2
        exact Option.noConfusion hf2
      · rw [hget] at hf2
        simp only [Option.map_some'] at hf2
        injection hf2 with hf2
        have hmem := List.getElem?_mem hget
        exact he tc hmem (hf2 ▸ hu)
  · intro s i track hjs
    have h0 : 0 ≤ i := by
      by_contra hneg
      unfold jsIndex at hjs
      rw [if_neg hneg] at hjs
      exact Option.noConfusion hjs
    have h1 : i.toNat < s.playlist.length := by
      by_contra hge
      unfold jsIndex at hjs
      rw [if_pos h0, List.get?_eq_none.mpr (by omega)] at hjs
      exact Option.noConfusion hjs
    rw [jsIndex_of_valid s.playlist i h0 h1] at hjs
    injection hjs with hjs
    subst hjs
    rcases lt_trichotomy i s.currentTrackIndex with hlt | heq | hgt
    · rw [removeTrack_before s i h0 h1 hlt]
    · by_cases h3 : 0 < (s.playlist.eraseIdx i.toNat).length
      · rw [removeTrack_current_rest s i h0 h1 heq h3, loadTrack_revoked]
      · rw [removeTrack_current_last s i h0 h1 heq h3]
    · rw [removeTrack_after s i h0 h1 hgt]

/-- C4 witness: add one valid file (its URL is 0), then remove it; URL 0 is in
the revocation list and the engine source no longer references it. -/
theorem c4_url_discipline_witness :
    0 ∈ (runEvents [Event.filesAdded [⟨"song.mp3", 5, "audio/mpeg"⟩],
          Event.removeClicked 0]).revoked ∧
    (runEvents [Event.filesAdded [⟨"song.mp3", 5, "audio/mpeg"⟩],
          Event.removeClicked 0]).audioSrc ≠ some 0 :=
  ⟨by decide,
    (c4_url_discipline.1 [Event.filesAdded [⟨"song.mp3", 5, "audio/mpeg"⟩],
        Event.removeClicked 0]).2.1 0 (by decide)⟩
